import Mathlib

/-!
Shallow embedding of the worker-pool orchestrator of `cargo-fuzz`
(`src/main.rs`): the `run` subcommand's `FuzzProject::exec_target`,
its multi-worker branch (spawning, output multiplexing, exit race,
teardown), the single-worker fast path, the `--jobs` validator, and
`main`'s exit-code mapping.

Conventions of the embedding:
* OS-level nondeterminism (which pid a spawn gets, whether a spawn or a
  wait fails, what the workers write on their streams, which child the
  `select_all` race reports first, whether a `kill` succeeds) is supplied
  by explicit oracle parameters collected in `RunEnv`.
* `io::Error` values are modelled as `String` messages; a process exit
  status is an `Int`.
* Futures combinators are modelled by their resolved values:
  `join_all`/`join3` fail as soon as any component fails (`joinAll`,
  `runPool`), `select_all` resolves to the first completion event
  (`RaceEvent`).  Where the real completion order of several failing
  components is scheduler-dependent, the model fixes one deterministic
  choice; the theorems below only depend on facts that hold for every
  order (which component set succeeded or failed).
-/

/-- The immutable process specification shared by all workers of one pool:
the `cargo run ...` command built in `exec_target` (src/main.rs 293-311).
The orchestrator never inspects its contents. -/
structure ProcessSpec where
  cmd : String
  args : List String
  envs : List (String × String)
deriving DecidableEq

/-- One spawned worker process: the spec it was spawned from plus the OS
process identity handed out by the spawn oracle. -/
structure Child where
  spec : ProcessSpec
  pid : Nat
deriving DecidableEq

/-- Spawn oracle: for the i-th spawn attempt, either the pid of the new
process or the `io::Error` message of a spawn failure. -/
def SpawnOracle : Type := Nat → Except String Nat

/-- Mirrors `(0..jobs).map(|_| cmd.spawn_async(..)).collect::<Result<Vec<_>>>()`
(src/main.rs 320-324): spawn attempts happen in order `i, i+1, ...` and stop
at the first failure, which becomes the collected `Result`'s error. -/
def spawnGo (spec : ProcessSpec) (oracle : SpawnOracle) : Nat → Nat → Except String (List Child)
  | _, 0 => .ok []
  | i, n+1 =>
    match oracle i with
    | .error e => .error e
    | .ok p => (spawnGo spec oracle (i+1) n).map (fun cs => Child.mk spec p :: cs)

/-- The pool-spawn loop of the `jobs > 1` branch, starting at attempt 0. -/
def spawnWorkers (spec : ProcessSpec) (oracle : SpawnOracle) (jobs : Nat) :
    Except String (List Child) :=
  spawnGo spec oracle 0 jobs

/-- The processes actually created by the (lazy) spawn loop: the successful
prefix of spawn attempts, cut off at the first failure. -/
def spawnedGo (spec : ProcessSpec) (oracle : SpawnOracle) : Nat → Nat → List Child
  | _, 0 => []
  | i, n+1 =>
    match oracle i with
    | .error _ => []
    | .ok p => Child.mk spec p :: spawnedGo spec oracle (i+1) n

/-- All worker processes created during `spawnWorkers spec oracle jobs`. -/
def spawnedDuring (spec : ProcessSpec) (oracle : SpawnOracle) (jobs : Nat) : List Child :=
  spawnedGo spec oracle 0 jobs

/-- Result of the pool-creation step: the collected `Result<Vec<Child>>`,
the list of processes that were actually created, and the list of processes
killed when the partial vector is dropped on the error path.
`tokio_process::Child` kills its OS process when the handle is dropped
(unless `forget()` is called, which this code never does), so the `?` early
return at src/main.rs 324 kills every already-spawned worker. -/
structure PoolCreation where
  result : Except String (List Child)
  spawned : List Child
  killed : List Child

/-- Pool creation (src/main.rs 320-324) including the drop-kill of the
partial pool on a spawn failure. -/
def poolCreate (spec : ProcessSpec) (oracle : SpawnOracle) (jobs : Nat) : PoolCreation :=
  match spawnWorkers spec oracle jobs with
  | .ok cs => ⟨.ok cs, cs, []⟩
  | .error e => ⟨.error e, spawnedDuring spec oracle jobs, spawnedDuring spec oracle jobs⟩

/-- The first completion event of `futures::select_all(chs)`
(src/main.rs 338): either some child exited with a status, or waiting on
some child failed; in both cases the event carries the index of that child
in `chs` and the vector of remaining (still pending) children. -/
inductive RaceEvent where
  | exited (status : Int) (idx : Nat) (rest : List Child)
  | waitFailed (e : String) (idx : Nat) (rest : List Child)

/-- Builds the `select_all` event from the race oracle: the wait result of
the first child to complete, its index, and the remaining children. -/
def mkEvent (res : Except String Int) (idx : Nat) (rest : List Child) : RaceEvent :=
  match res with
  | .ok s => .exited s idx rest
  | .error e => .waitFailed e idx rest

/-- What the `.then(..)` closure on the select_all future produces
(src/main.rs 338-347): the resolved outcome of the race, and the children
on which `kill()` was called during teardown. -/
structure RaceOutcome where
  result : Except String Nat
  killAttempts : List Child

/-- The `.then(..)` closure at src/main.rs 338-347: on a normal first exit
the winning index is kept (its exit status is discarded by the `_` pattern)
and every remaining child is killed; on a wait failure the error is kept
and every remaining child is killed.  Each `kill()` result is discarded
(`let _ = ch.kill();`), so the kill oracle `kills` cannot influence the
outcome. -/
def resolveRace (kills : Child → Except String Unit) : RaceEvent → RaceOutcome
  | .exited _ n rest => ⟨.ok n, rest⟩
  | .waitFailed e _ rest => ⟨.error e, rest⟩

/-- Which caller-facing stream a multiplexed line is written to. -/
inductive StreamKind where
  | stdout
  | stderr
deriving DecidableEq

/-- How a worker's output stream ends: normal end-of-file, or a read error
reported by `tokio_io::io::lines`. -/
inductive StreamEnd where
  | eof
  | readError (e : String)
deriving DecidableEq

/-- One line written to the caller's stdout or stderr by the multiplexer. -/
structure WrittenLine where
  kind : StreamKind
  text : String
deriving DecidableEq

/-- The `[<id>] <line>` tag format of `writeln!(.., "[{}] {}", id, l)`
(src/main.rs 329 and 335). -/
def tagLine (id : Nat) (l : String) : String :=
  "[" ++ toString id ++ "] " ++ l

/-- The per-worker `tokio_io::io::lines(buf).for_each(..)` loop
(src/main.rs 326-337): every line the worker emits on this stream is
written, in emission order, to the caller-facing stream `kind`, tagged
with the worker's job id; the loop's future resolves `Ok` at end-of-file
and `Err` if reading the stream failed. -/
def muxLoop (kind : StreamKind) (id : Nat) :
    List String → StreamEnd → List WrittenLine × Except String Unit
  | [], .eof => ([], .ok ())
  | [], .readError e => ([], .error e)
  | l :: rest, e =>
    let r := muxLoop kind id rest e
    (WrittenLine.mk kind (tagLine id l) :: r.1, r.2)

/-- `futures::future::join_all`: succeeds when every component does,
fails as soon as any component fails. -/
def joinAll : List (Except String Unit) → Except String Unit
  | [] => .ok ()
  | .error e :: _ => .error e
  | .ok _ :: rest => joinAll rest

/-- `core.run(exits.join3(stdouts, stderrs))` (src/main.rs 349): the
combined future succeeds with the race winner's index when the race and
both multiplexer groups succeed, and fails with the first error
otherwise. -/
def runPool (race : Except String Nat) (outMux errMux : Except String Unit) :
    Except String Nat :=
  match race with
  | .error e => .error e
  | .ok n =>
    match outMux with
    | .error e => .error e
    | .ok _ =>
      match errMux with
      | .error e => .error e
      | .ok _ => .ok n

/-- All OS-level nondeterminism of one multi-worker run: the spawn oracle,
the identity and wait result of the first child to complete in the race,
the lines each worker emits on each stream and how each stream ends, and
the kill oracle used during teardown. -/
structure RunEnv where
  spawn : SpawnOracle
  raceIdx : Nat
  raceRes : Except String Int
  outLines : Nat → List String
  outEnd : Nat → StreamEnd
  errLines : Nat → List String
  errEnd : Nat → StreamEnd
  kills : Child → Except String Unit

/-- The `println!("Worker {} finished fuzzing", jobnum)` line
(src/main.rs 351). -/
def finishLine (n : Nat) : String :=
  "Worker " ++ toString n ++ " finished fuzzing"

/-- Observable result of the `jobs > 1` branch of `exec_target`. -/
structure MultiResult where
  result : Except String Nat
  finalLine : Option String
  written : List WrittenLine
  killAttempts : List Child

/-- The `jobs > 1` branch of `exec_target` (src/main.rs 316-353): create
the pool; on a spawn failure return that error (the partial pool having
been killed by drop).  Otherwise build one stdout and one stderr
multiplexing loop per worker, with ids assigned by `enumerate()` in vector
order, race all children with `select_all`, kill the losers, and run
everything joined; on success report the winner with the final
`Worker <id> finished fuzzing` line. -/
def execTargetMulti (spec : ProcessSpec) (env : RunEnv) (jobs : Nat) : MultiResult :=
  let pc := poolCreate spec env.spawn jobs
  match pc.result with
  | .error e => ⟨.error e, none, [], pc.killed⟩
  | .ok cs =>
    let outs := cs.enum.map (fun p => muxLoop .stdout p.1 (env.outLines p.1) (env.outEnd p.1))
    let errs := cs.enum.map (fun p => muxLoop .stderr p.1 (env.errLines p.1) (env.errEnd p.1))
    let race := resolveRace env.kills (mkEvent env.raceRes env.raceIdx (cs.eraseIdx env.raceIdx))
    let res := runPool race.result (joinAll (outs.map Prod.snd)) (joinAll (errs.map Prod.snd))
    ⟨res,
     match res with
     | .ok n => some (finishLine n)
     | .error _ => none,
     (outs.map Prod.fst).flatten ++ (errs.map Prod.fst).flatten,
     race.killAttempts⟩

/-- What `exec_target` returns to `main` from the multi-worker branch:
`core.run(..)?` propagates any error, and on success the winner index is
dropped and `Ok(())` is returned (src/main.rs 349-352). -/
def execTargetResult (m : MultiResult) : Except String Unit :=
  match m.result with
  | .ok _ => .ok ()
  | .error e => .error e

/-- `main`'s exit-code mapping (src/main.rs 112-123):
`.map(|_| 0).unwrap_or_else(|err| { report_error(&err); 1 })`. -/
def mainExitCode : Except String Unit → Nat
  | .ok _ => 0
  | .error _ => 1

/-- `exec_cmd` on platforms without process replacement
(src/main.rs 475-478): spawn the single worker via `cmd.status()` and wait
for it, returning its exit status (or the wait error). -/
def exec_cmd_fallback (wait : Except String Int) : Except String Int :=
  wait

/-- The `jobs == 1` branch of `exec_target` on such platforms
(src/main.rs 313-315): `exec_cmd(&mut cmd)?;` propagates only the error
case; a successfully returned `ExitStatus` is discarded and `Ok(())` is
returned. -/
def execTargetSingleFallback (wait : Except String Int) : Except String Unit :=
  match exec_cmd_fallback wait with
  | .error e => .error e
  | .ok _ => .ok ()

/-- Numeric value of an ASCII digit. -/
def charVal (c : Char) : Nat :=
  c.toNat - Char.toNat '0'

/-- Rust's `str::parse::<u16>()`: an optional leading `+`, then one or
more ASCII digits, whose value must fit in 16 bits; anything else (empty
string, other characters, overflow) is a parse error, modelled as
`none`. -/
def parseU16 (s : String) : Option Nat :=
  let cs :=
    match s.data with
    | '+' :: rest => rest
    | cs => cs
  if cs.isEmpty then none
  else if cs.all Char.isDigit then
    let n := cs.foldl (fun acc c => acc * 10 + charVal c) 0
    if n < 65536 then some n else none
  else none

/-- The `--jobs` validator closure (src/main.rs 86-90): parse as `u16`,
reject `Ok(0)` with "0 jobs?", reject parse errors with the fixed message,
accept everything else. -/
def validateJobs (s : String) : Except String Unit :=
  match parseU16 s with
  | some 0 => .error "0 jobs?"
  | none => .error "must be a valid integer representing a sane number of jobs"
  | some _ => .ok ()

/-- A concrete process specification used in the concrete runs below. -/
def specEx : ProcessSpec :=
  ⟨"cargo", ["run", "--bin", "fuzzer_script_1"], [("RUSTFLAGS", "-Cpasses=sancov")]⟩

/-- A concrete environment for a clean two-worker run: both spawns
succeed, worker 1 exits first with status 9, worker 0 emits two stdout
lines and worker 1 one, and every stream ends normally. -/
def envClean : RunEnv where
  spawn := fun i => .ok (40 + i)
  raceIdx := 1
  raceRes := .ok 9
  outLines := fun i => if i = 0 then ["a", "b"] else ["c"]
  outEnd := fun _ => .eof
  errLines := fun _ => []
  errEnd := fun _ => .eof
  kills := fun _ => .ok ()

/-- A concrete environment where worker 0 wins the race cleanly with
status 0 but reading worker 1's stdout fails. -/
def envReadErr : RunEnv :=
  { envClean with
    raceIdx := 0
    raceRes := .ok 0
    outEnd := fun i => if i = 1 then .readError "read failed" else .eof }

/-! ### Helper lemmas (shared) -/

/-- If every spawn attempt in the window succeeds, the spawn loop returns
one child per attempt, in attempt order. -/
theorem spawnGo_ok (spec : ProcessSpec) (oracle : SpawnOracle) (pid : Nat → Nat) :
    ∀ (n i : Nat), (∀ j, i ≤ j → j < i + n → oracle j = .ok (pid j)) →
      spawnGo spec oracle i n = .ok ((List.range' i n).map (fun j => Child.mk spec (pid j))) := by
  intro n
  induction n with
  | zero => intro i _; rfl
  | succ m ih =>
    intro i h
    have h0 : oracle i = .ok (pid i) := h i (Nat.le_refl i) (by omega)
    have hrec := ih (i + 1) (fun j hj1 hj2 => h j (by omega) (by omega))
    simp [spawnGo, h0, hrec, Except.map, List.range'_succ]

/-- If the attempts before `k` succeed and attempt `k` fails, the spawn
loop fails with that spawn error. -/
theorem spawnGo_error (spec : ProcessSpec) (oracle : SpawnOracle) (pid : Nat → Nat) (e : String) :
    ∀ (k n i : Nat), k < n → (∀ j, i ≤ j → j < i + k → oracle j = .ok (pid j)) →
      oracle (i + k) = .error e → spawnGo spec oracle i n = .error e := by
  intro k
  induction k with
  | zero =>
    intro n i hk _ hfail
    match n, hk with
    | m+1, _ =>
      simp only [Nat.add_zero] at hfail
      simp [spawnGo, hfail]
  | succ m ih =>
    intro n i hk hok hfail
    match n, hk with
    | l+1, _ =>
      have h0 : oracle i = .ok (pid i) := hok i (Nat.le_refl i) (by omega)
      have hrec := ih l (i + 1) (by omega) (fun j hj1 hj2 => hok j (by omega) (by omega))
        (by have : i + 1 + m = i + (m + 1) := by omega
            rw [this]; exact hfail)
      simp [spawnGo, h0, hrec, Except.map]

/-- With every spawn attempt succeeding, the created processes are exactly
one per attempt. -/
theorem spawnedGo_ok (spec : ProcessSpec) (oracle : SpawnOracle) (pid : Nat → Nat) :
    ∀ (n i : Nat), (∀ j, i ≤ j → j < i + n → oracle j = .ok (pid j)) →
      spawnedGo spec oracle i n = (List.range' i n).map (fun j => Child.mk spec (pid j)) := by
  intro n
  induction n with
  | zero => intro i _; rfl
  | succ m ih =>
    intro i h
    have h0 : oracle i = .ok (pid i) := h i (Nat.le_refl i) (by omega)
    have hrec := ih (i + 1) (fun j hj1 hj2 => h j (by omega) (by omega))
    simp [spawnedGo, h0, hrec, List.range'_succ]

/-- With the first failure at attempt `k`, the created processes are
exactly those of the successful prefix of attempts. -/
theorem spawnedGo_error (spec : ProcessSpec) (oracle : SpawnOracle) (pid : Nat → Nat) (e : String) :
    ∀ (k n i : Nat), k < n → (∀ j, i ≤ j → j < i + k → oracle j = .ok (pid j)) →
      oracle (i + k) = .error e →
      spawnedGo spec oracle i n = (List.range' i k).map (fun j => Child.mk spec (pid j)) := by
  intro k
  induction k with
  | zero =>
    intro n i hk _ hfail
    match n, hk with
    | m+1, _ =>
      simp only [Nat.add_zero] at hfail
      simp [spawnedGo, hfail]
  | succ m ih =>
    intro n i hk hok hfail
    match n, hk with
    | l+1, _ =>
      have h0 : oracle i = .ok (pid i) := hok i (Nat.le_refl i) (by omega)
      have hrec := ih l (i + 1) (by omega) (fun j hj1 hj2 => hok j (by omega) (by omega))
        (by have : i + 1 + m = i + (m + 1) := by omega
            rw [this]; exact hfail)
      simp [spawnedGo, h0, hrec, List.range'_succ]

/-- The lines a mux loop writes are exactly the tagged input lines. -/
theorem muxLoop_fst (kind : StreamKind) (id : Nat) :
    ∀ (ls : List String) (e : StreamEnd),
      (muxLoop kind id ls e).1 = ls.map (fun l => WrittenLine.mk kind (tagLine id l)) := by
  intro ls
  induction ls with
  | nil => intro e; cases e <;> rfl
  | cons l rest ih => intro e; simp [muxLoop, ih e]

/-- A mux loop's future resolves according to how the stream ended. -/
theorem muxLoop_snd (kind : StreamKind) (id : Nat) :
    ∀ (ls : List String) (e : StreamEnd),
      (muxLoop kind id ls e).2 =
        (match e with | .eof => Except.ok () | .readError er => Except.error er) := by
  intro ls
  induction ls with
  | nil => intro e; cases e <;> rfl
  | cons l rest ih => intro e; simp [muxLoop, ih e]

/-- `joinAll` succeeds when every component succeeds. -/
theorem joinAll_ok_of : ∀ (l : List (Except String Unit)),
    (∀ r ∈ l, r = Except.ok ()) → joinAll l = .ok () := by
  intro l
  induction l with
  | nil => intro _; rfl
  | cons r rest ih =>
    intro h
    have hr := h r (List.mem_cons_self r rest)
    subst hr
    exact ih (fun x hx => h x (List.mem_cons_of_mem _ hx))

/-- `joinAll` fails when some component fails. -/
theorem joinAll_error_of : ∀ (l : List (Except String Unit)),
    (∃ r ∈ l, ∃ e, r = Except.error e) → ∃ e, joinAll l = .error e := by
  intro l
  induction l with
  | nil => intro h; simp at h
  | cons r rest ih =>
    intro h
    cases hr : r with
    | error e => exact ⟨e, by simp [joinAll, hr]⟩
    | ok u =>
      rcases h with ⟨x, hx, e, hxe⟩
      rcases List.mem_cons.mp hx with h1 | h2
      · subst h1; rw [hr] at hxe; cases hxe
      · cases u
        have := ih ⟨x, h2, e, hxe⟩
        simpa [joinAll, hr] using this

/-- The second components of the per-worker mux loops built by
`enumerate()` over the pool, rewritten as a function of the job ids
`0..N-1` and the stream endings alone. -/
theorem enum_mux_snd (cs : List Child) (kind : StreamKind)
    (lines : Nat → List String) (ends : Nat → StreamEnd) :
    (cs.enum.map (fun p => muxLoop kind p.1 (lines p.1) (ends p.1))).map Prod.snd
      = (List.range cs.length).map (fun id =>
          match ends id with | .eof => Except.ok () | .readError er => Except.error er) := by
  rw [List.map_map]
  have h2 : (Prod.snd ∘ fun p : Nat × Child => muxLoop kind p.1 (lines p.1) (ends p.1))
      = ((fun id => (muxLoop kind id (lines id) (ends id)).2) ∘ Prod.fst) := rfl
  rw [h2, ← List.map_map, List.enum_map_fst]
  simp only [muxLoop_snd]

/-- The first components of the per-worker mux loops, rewritten as a
function of the job ids and the per-worker line lists alone. -/
theorem enum_mux_fst (cs : List Child) (kind : StreamKind)
    (lines : Nat → List String) (ends : Nat → StreamEnd) :
    (cs.enum.map (fun p => muxLoop kind p.1 (lines p.1) (ends p.1))).map Prod.fst
      = (List.range cs.length).map (fun id =>
          (lines id).map (fun l => WrittenLine.mk kind (tagLine id l))) := by
  rw [List.map_map]
  have h2 : (Prod.fst ∘ fun p : Nat × Child => muxLoop kind p.1 (lines p.1) (ends p.1))
      = ((fun id => (muxLoop kind id (lines id) (ends id)).1) ∘ Prod.fst) := rfl
  rw [h2, ← List.map_map, List.enum_map_fst]
  simp only [muxLoop_fst]

/-- `resolveRace` does not read the kill oracle: its whole outcome is the
same for any two oracles. -/
theorem resolveRace_kills_irrel (k k2 : Child → Except String Unit) (ev : RaceEvent) :
    resolveRace k ev = resolveRace k2 ev := by
  cases ev <;> rfl

/-- With every spawn succeeding, the multi-worker run's resolved outcome
is the race outcome joined with the two multiplexer groups, each a
function of the respective oracles alone. -/
theorem multi_result_eq (spec : ProcessSpec) (env : RunEnv) (jobs : Nat) (pid : Nat → Nat)
    (hspawn : ∀ i, env.spawn i = .ok (pid i)) :
    (execTargetMulti spec env jobs).result =
      runPool
        (match env.raceRes with | .ok _ => .ok env.raceIdx | .error e => .error e)
        (joinAll ((List.range jobs).map (fun id =>
          match env.outEnd id with | .eof => Except.ok () | .readError er => Except.error er)))
        (joinAll ((List.range jobs).map (fun id =>
          match env.errEnd id with | .eof => Except.ok () | .readError er => Except.error er))) := by
  have hcs : spawnWorkers spec env.spawn jobs =
      .ok ((List.range' 0 jobs).map (fun j => Child.mk spec (pid j))) :=
    spawnGo_ok spec env.spawn pid jobs 0 (fun j _ _ => hspawn j)
  have hlen : ((List.range' 0 jobs).map (fun j => Child.mk spec (pid j))).length = jobs := by
    simp
  have hrace : ∀ (rest : List Child),
      (resolveRace env.kills (mkEvent env.raceRes env.raceIdx rest)).result
        = (match env.raceRes with | .ok _ => Except.ok env.raceIdx | .error e => .error e) := by
    intro rest
    cases env.raceRes <;> rfl
  simp only [execTargetMulti, poolCreate, hcs]
  rw [enum_mux_snd, enum_mux_snd, hlen, hrace]

/-- The final `Worker <id> finished fuzzing` line is printed exactly when
the joined run resolved successfully, and names the resolved winner. -/
theorem finalLine_eq (spec : ProcessSpec) (env : RunEnv) (jobs : Nat) :
    (execTargetMulti spec env jobs).finalLine =
      match (execTargetMulti spec env jobs).result with
      | .ok n => some (finishLine n)
      | .error _ => none := by
  simp only [execTargetMulti]
  cases h : (poolCreate spec env.spawn jobs).result <;> simp

/-- With every spawn succeeding, the lines written by the multiplexers are
the per-worker stdout lines tagged with kind `stdout`, then the per-worker
stderr lines tagged with kind `stderr`, each worker's lines in emission
order under its own job id. -/
theorem written_eq (spec : ProcessSpec) (env : RunEnv) (jobs : Nat) (pid : Nat → Nat)
    (hspawn : ∀ i, env.spawn i = .ok (pid i)) :
    (execTargetMulti spec env jobs).written
      = ((List.range jobs).map (fun id =>
          (env.outLines id).map (fun l => WrittenLine.mk .stdout (tagLine id l)))).flatten
        ++ ((List.range jobs).map (fun id =>
          (env.errLines id).map (fun l => WrittenLine.mk .stderr (tagLine id l)))).flatten := by
  have hcs : spawnWorkers spec env.spawn jobs =
      .ok ((List.range' 0 jobs).map (fun j => Child.mk spec (pid j))) :=
    spawnGo_ok spec env.spawn pid jobs 0 (fun j _ _ => hspawn j)
  have hlen : ((List.range' 0 jobs).map (fun j => Child.mk spec (pid j))).length = jobs := by
    simp
  simp only [execTargetMulti, poolCreate, hcs]
  rw [enum_mux_fst, enum_mux_fst, hlen]

/-- A spawn failure short-circuits the whole multi-worker branch into that
error. -/
theorem multi_result_spawn_error (spec : ProcessSpec) (env : RunEnv) (jobs : Nat) (e : String)
    (h : (poolCreate spec env.spawn jobs).result = .error e) :
    (execTargetMulti spec env jobs).result = .error e := by
  simp only [execTargetMulti, h]

/-- A failed joined run maps to process exit code 1 through
`exec_target`'s `?` and `main`'s error arm. -/
theorem exit_one_of_error (m : MultiResult) (e : String) (h : m.result = .error e) :
    mainExitCode (execTargetResult m) = 1 := by
  simp [execTargetResult, mainExitCode, h]

/-- A successful joined run maps to process exit code 0. -/
theorem exit_zero_of_ok (m : MultiResult) (n : Nat) (h : m.result = .ok n) :
    mainExitCode (execTargetResult m) = 0 := by
  simp [execTargetResult, mainExitCode, h]

/-- Any value produced by `parseU16` fits in 16 bits. -/
theorem parseU16_lt (s : String) (n : Nat) (h : parseU16 s = some n) : n < 65536 := by
  simp only [parseU16] at h
  split at h
  · cases h
  · split at h
    · split at h
      · cases h
        omega
      · cases h
    · cases h

/-! ### Claims -/

/-- C1: for every worker count `jobs >= 1`, when no spawn fails, the pool
branch spawns exactly `jobs` worker processes — no more (the processes
created are exactly the collected ones) — all from the same `ProcessSpec`,
and the job ids given to the workers by `enumerate()` (the ids used to tag
their output lines and to name the race winner) are exactly
`0, 1, ..., jobs-1`: unique, and each within `0..jobs-1`. -/
theorem c1_spawn_n_workers_unique_ids (spec : ProcessSpec) (pid : Nat → Nat) (jobs : Nat)
    (hjobs : 1 ≤ jobs) :
    ∃ cs : List Child,
      spawnWorkers spec (fun i => .ok (pid i)) jobs = .ok cs ∧
      cs.length = jobs ∧
      spawnedDuring spec (fun i => .ok (pid i)) jobs = cs ∧
      (∀ c ∈ cs, c.spec = spec) ∧
      cs.enum.map Prod.fst = List.range jobs ∧
      (cs.enum.map Prod.fst).Nodup ∧
      (∀ i ∈ cs.enum.map Prod.fst, i < jobs) := by
  have hlen : ((List.range' 0 jobs).map (fun j => Child.mk spec (pid j))).length = jobs := by
    simp
  refine ⟨(List.range' 0 jobs).map (fun j => Child.mk spec (pid j)), ?_, hlen, ?_, ?_, ?_, ?_, ?_⟩
  · exact spawnGo_ok spec _ pid jobs 0 (fun j _ _ => rfl)
  · exact spawnedGo_ok spec _ pid jobs 0 (fun j _ _ => rfl)
  · intro c hc
    rcases List.mem_map.mp hc with ⟨j, _, rfl⟩
    rfl
  · rw [List.enum_map_fst, hlen]
  · rw [List.enum_map_fst, hlen]
    exact List.nodup_range jobs
  · intro i hi
    rw [List.enum_map_fst, hlen] at hi
    exact List.mem_range.mp hi

theorem c1_witness :
    1 ≤ 3 ∧ ∃ cs : List Child,
      spawnWorkers specEx (fun i => .ok (100 + i)) 3 = .ok cs ∧
      cs.length = 3 ∧
      spawnedDuring specEx (fun i => .ok (100 + i)) 3 = cs ∧
      (∀ c ∈ cs, c.spec = specEx) ∧
      cs.enum.map Prod.fst = List.range 3 ∧
      (cs.enum.map Prod.fst).Nodup ∧
      (∀ i ∈ cs.enum.map Prod.fst, i < 3) :=
  ⟨by omega, c1_spawn_n_workers_unique_ids specEx (fun i => 100 + i) 3 (by omega)⟩

/-- C2: if waiting on a worker fails, the `.then` closure treats that
worker as the race winner: every remaining worker is killed, and the wait
error becomes the outcome `core.run` propagates, whatever the
multiplexers did. -/
theorem c2_wait_error_wins (kills : Child → Except String Unit) (e : String) (idx : Nat)
    (rest : List Child) (outMux errMux : Except String Unit) :
    (resolveRace kills (RaceEvent.waitFailed e idx rest)).killAttempts = rest ∧
    runPool (resolveRace kills (RaceEvent.waitFailed e idx rest)).result outMux errMux
      = .error e :=
  ⟨rfl, rfl⟩

/-- C3: a spawn failure at any attempt `k < jobs` makes pool creation fail
as a whole: the collected result is that spawn error, the processes
actually created are exactly the successful prefix (attempts `0..k-1` —
later attempts never happen), and every one of them is killed when the
partial vector is dropped, so no partial pool of running workers
remains. -/
theorem c3_spawn_failure_atomic (spec : ProcessSpec) (oracle : SpawnOracle) (pid : Nat → Nat)
    (jobs k : Nat) (e : String) (hk : k < jobs)
    (hok : ∀ j, j < k → oracle j = .ok (pid j)) (hfail : oracle k = .error e) :
    (poolCreate spec oracle jobs).result = .error e ∧
    (poolCreate spec oracle jobs).spawned
      = (List.range k).map (fun j => Child.mk spec (pid j)) ∧
    (poolCreate spec oracle jobs).killed = (poolCreate spec oracle jobs).spawned := by
  have hsw : spawnWorkers spec oracle jobs = .error e :=
    spawnGo_error spec oracle pid e k jobs 0 hk (fun j _ hj => hok j (by omega))
      (by simpa using hfail)
  have hsd : spawnedDuring spec oracle jobs
      = (List.range' 0 k).map (fun j => Child.mk spec (pid j)) :=
    spawnedGo_error spec oracle pid e k jobs 0 hk (fun j _ hj => hok j (by omega))
      (by simpa using hfail)
  unfold poolCreate
  rw [hsw]
  refine ⟨rfl, ?_, rfl⟩
  rw [List.range_eq_range']
  exact hsd

theorem c3_witness :
    2 < 5 ∧ (∀ j, j < 2 → (fun i => if i < 2 then Except.ok (10 + i) else
        Except.error "No such file or directory") j = .ok (10 + j)) ∧
    (fun i => if i < 2 then Except.ok (10 + i) else
        Except.error "No such file or directory") 2 = .error "No such file or directory" ∧
    ((poolCreate specEx (fun i => if i < 2 then Except.ok (10 + i) else
        Except.error "No such file or directory") 5).result
      = .error "No such file or directory" ∧
     (poolCreate specEx (fun i => if i < 2 then Except.ok (10 + i) else
        Except.error "No such file or directory") 5).spawned
      = (List.range 2).map (fun j => Child.mk specEx (10 + j)) ∧
     (poolCreate specEx (fun i => if i < 2 then Except.ok (10 + i) else
        Except.error "No such file or directory") 5).killed
      = (poolCreate specEx (fun i => if i < 2 then Except.ok (10 + i) else
        Except.error "No such file or directory") 5).spawned) :=
  ⟨by omega, fun j hj => by simp [hj], by simp,
   c3_spawn_failure_atomic specEx _ (fun i => 10 + i) 5 2 "No such file or directory"
     (by omega) (fun j hj => by simp [hj]) (by simp)⟩

/-- C7: the multiplexing loop a worker's stream is wired into writes, to
the caller-facing stream kind it was built for (`exec_target` instantiates
kind `stdout` for worker stdout streams and `stderr` for worker stderr
streams), exactly one line per line the worker emitted, in the worker's
emission order, each formatted `[<id>] <line>` with that worker's job
id. -/
theorem c7_mux_tags_and_order (kind : StreamKind) (id : Nat) (ls : List String)
    (e : StreamEnd) :
    (muxLoop kind id ls e).1.map WrittenLine.text
      = ls.map (fun l => "[" ++ toString id ++ "] " ++ l) ∧
    (∀ w ∈ (muxLoop kind id ls e).1, w.kind = kind) := by
  constructor
  · rw [muxLoop_fst]
    simp [tagLine]
  · intro w hw
    rw [muxLoop_fst] at hw
    rcases List.mem_map.mp hw with ⟨l, _, rfl⟩
    rfl

/-- C8: the pool resolves to the single outcome determined by the first
completion event of the race (that worker's index and wait result) alone:
the recorded outcome is the same whatever the set of remaining workers is
and whatever the kill oracle later does to them during teardown. -/
theorem c8_single_terminal_outcome (res : Except String Int) (idx : Nat)
    (rest rest2 : List Child) (k k2 : Child → Except String Unit) :
    (resolveRace k (mkEvent res idx rest)).result
      = (resolveRace k2 (mkEvent res idx rest2)).result ∧
    (resolveRace k (mkEvent res idx rest)).result
      = (match res with | .ok _ => Except.ok idx | .error e => Except.error e) := by
  cases res <;> exact ⟨rfl, rfl⟩

/-- C9: failures of the termination signal during teardown are swallowed:
the multi-worker run's resolved outcome and final line are identical under
any two kill oracles, and in particular a kill oracle that fails on every
child (e.g. because the child already exited) yields the same race outcome
as one that always succeeds — a kill error is never escalated. -/
theorem c9_kill_failures_tolerated (spec : ProcessSpec) (env : RunEnv) (jobs : Nat)
    (k2 : Child → Except String Unit) :
    ((execTargetMulti spec env jobs).result
       = (execTargetMulti spec { env with kills := k2 } jobs).result) ∧
    ((execTargetMulti spec env jobs).finalLine
       = (execTargetMulti spec { env with kills := k2 } jobs).finalLine) ∧
    (∀ ev : RaceEvent,
       (resolveRace (fun _ => Except.error "No such process") ev).result
         = (resolveRace (fun _ => Except.ok ()) ev).result) := by
  refine ⟨?_, ?_, fun ev => by cases ev <;> rfl⟩ <;>
  · simp only [execTargetMulti]
    cases h : (poolCreate spec env.spawn jobs).result <;>
      simp [resolveRace_kills_irrel env.kills k2]

/-- C10: the `--jobs` validator accepts exactly the strings that parse as
a 16-bit unsigned integer in `1..=65535`: `0` is rejected with "0 jobs?",
non-integer strings and values above 65535 fail the `u16` parse and are
rejected with the parse-error message — so the accepted worker counts are
in fact bounded by 65535. -/
theorem c10_jobs_bounded_validation (s : String) :
    (validateJobs s = .ok () ↔ ∃ n, parseU16 s = some n ∧ 1 ≤ n ∧ n ≤ 65535) ∧
    validateJobs "0" = .error "0 jobs?" ∧
    validateJobs "1" = .ok () ∧
    validateJobs "65535" = .ok () ∧
    validateJobs "65536"
      = .error "must be a valid integer representing a sane number of jobs" ∧
    validateJobs "abc"
      = .error "must be a valid integer representing a sane number of jobs" := by
  refine ⟨?_, by rfl, by rfl, by rfl, by rfl, by rfl⟩
  constructor
  · intro h
    cases hp : parseU16 s with
    | none => rw [validateJobs, hp] at h; cases h
    | some n =>
      cases n with
      | zero => rw [validateJobs, hp] at h; cases h
      | succ m =>
        have hb := parseU16_lt s (m + 1) hp
        exact ⟨m + 1, rfl, by omega, by omega⟩
  · rintro ⟨n, hp, h1, h2⟩
    cases n with
    | zero => omega
    | succ m =>
      rw [validateJobs, hp]
      rfl

/-- C4: with every spawn succeeding, a multi-worker run that hits no
orchestration error resolves to the race winner's index regardless of the
exit status the winner itself reported, prints the
`Worker <id> finished fuzzing` line naming that winner, and exits 0; a
wait failure, a read failure on any worker's stream, or a spawn failure
each make `exec_target` return an error, so the process exits 1. -/
theorem c4_exit_code_policy (spec : ProcessSpec) (env : RunEnv) (jobs : Nat) (pid : Nat → Nat)
    (hjobs : 2 ≤ jobs) (hspawn : ∀ i, env.spawn i = .ok (pid i)) :
    ((∃ s : Int, env.raceRes = .ok s) → (∀ i, i < jobs → env.outEnd i = .eof) →
     (∀ i, i < jobs → env.errEnd i = .eof) →
       (execTargetMulti spec env jobs).result = .ok env.raceIdx ∧
       (execTargetMulti spec env jobs).finalLine
         = some ("Worker " ++ toString env.raceIdx ++ " finished fuzzing") ∧
       mainExitCode (execTargetResult (execTargetMulti spec env jobs)) = 0) ∧
    ((∃ e, env.raceRes = .error e) →
       mainExitCode (execTargetResult (execTargetMulti spec env jobs)) = 1) ∧
    ((∃ i, i < jobs ∧ ∃ e, env.outEnd i = .readError e ∨ env.errEnd i = .readError e) →
       mainExitCode (execTargetResult (execTargetMulti spec env jobs)) = 1) ∧
    (∀ (oracle : SpawnOracle) (k : Nat) (e : String), k < jobs →
       (∀ j, j < k → oracle j = .ok (pid j)) → oracle k = .error e →
       mainExitCode (execTargetResult (execTargetMulti spec { env with spawn := oracle } jobs)) = 1) := by
  have hres := multi_result_eq spec env jobs pid hspawn
  refine ⟨?_, ?_, ?_, ?_⟩
  · rintro ⟨s, hs⟩ houts herrs
    have hout : joinAll ((List.range jobs).map (fun id =>
        match env.outEnd id with
        | .eof => Except.ok ()
        | .readError er => Except.error er)) = .ok () := by
      refine joinAll_ok_of _ ?_
      intro r hr
      rcases List.mem_map.mp hr with ⟨id, hid, rfl⟩
      rw [houts id (List.mem_range.mp hid)]
    have herr : joinAll ((List.range jobs).map (fun id =>
        match env.errEnd id with
        | .eof => Except.ok ()
        | .readError er => Except.error er)) = .ok () := by
      refine joinAll_ok_of _ ?_
      intro r hr
      rcases List.mem_map.mp hr with ⟨id, hid, rfl⟩
      rw [herrs id (List.mem_range.mp hid)]
    have hok : (execTargetMulti spec env jobs).result = .ok env.raceIdx := by
      rw [hres, hs, hout, herr]
      rfl
    refine ⟨hok, ?_, exit_zero_of_ok _ _ hok⟩
    rw [finalLine_eq, hok]
    rfl
  · rintro ⟨e, he⟩
    refine exit_one_of_error _ e ?_
    rw [hres, he]
    rfl
  · rintro ⟨i, hi, e, hcase⟩
    cases hrr : env.raceRes with
    | error er =>
      refine exit_one_of_error _ er ?_
      rw [hres, hrr]
      rfl
    | ok s =>
      rcases hcase with hout | herr
      · have : ∃ er, joinAll ((List.range jobs).map (fun id =>
            match env.outEnd id with
            | .eof => Except.ok ()
            | .readError er => Except.error er)) = .error er := by
          refine joinAll_error_of _ ⟨_, List.mem_map_of_mem _ (List.mem_range.mpr hi), e, ?_⟩
          rw [hout]
        rcases this with ⟨er, hjoin⟩
        refine exit_one_of_error _ er ?_
        rw [hres, hrr, hjoin]
        cases hj2 : joinAll ((List.range jobs).map (fun id =>
            match env.errEnd id with
            | .eof => Except.ok ()
            | .readError er => Except.error er)) <;> rfl
      · have : ∃ er, joinAll ((List.range jobs).map (fun id =>
            match env.errEnd id with
            | .eof => Except.ok ()
            | .readError er => Except.error er)) = .error er := by
          refine joinAll_error_of _ ⟨_, List.mem_map_of_mem _ (List.mem_range.mpr hi), e, ?_⟩
          rw [herr]
        rcases this with ⟨er, hjoin⟩
        cases hj1 : joinAll ((List.range jobs).map (fun id =>
            match env.outEnd id with
            | .eof => Except.ok ()
            | .readError er => Except.error er)) with
        | error e1 =>
          refine exit_one_of_error _ e1 ?_
          rw [hres, hrr, hj1]
          rfl
        | ok u =>
          refine exit_one_of_error _ er ?_
          rw [hres, hrr, hj1, hjoin]
          rfl
  · intro oracle k e hk hok hfail
    have hsw : spawnWorkers spec oracle jobs = .error e :=
      spawnGo_error spec oracle pid e k jobs 0 hk (fun j _ hj => hok j (by omega))
        (by simpa using hfail)
    refine exit_one_of_error _ e ?_
    refine multi_result_spawn_error spec _ jobs e ?_
    show (poolCreate spec oracle jobs).result = .error e
    unfold poolCreate
    rw [hsw]

theorem c4_witness :
    (execTargetMulti specEx envClean 2).result = .ok envClean.raceIdx ∧
    (execTargetMulti specEx envClean 2).finalLine
      = some ("Worker " ++ toString envClean.raceIdx ++ " finished fuzzing") ∧
    mainExitCode (execTargetResult (execTargetMulti specEx envClean 2)) = 0 :=
  (c4_exit_code_policy specEx envClean 2 (fun i => 40 + i) (by omega) (fun i => rfl)).1
    ⟨9, rfl⟩ (fun i _ => rfl) (fun i _ => rfl)

/-- C5, at the code's behavior on the failing input: on a platform without
process replacement the single-worker path waits for the worker via
`exec_cmd` (which returns the worker's `ExitStatus`), but the `jobs == 1`
branch of `exec_target` discards that status with `?` followed by
`Ok(())`: a single worker exiting with status 77 makes the overall process
exit 0, not 77 as the pass-through contract requires. -/
theorem c5_fallback_discards_status :
    exec_cmd_fallback (.ok 77) = .ok 77 ∧
    execTargetSingleFallback (.ok 77) = .ok () ∧
    mainExitCode (execTargetSingleFallback (.ok 77)) = 0 :=
  ⟨rfl, rfl, rfl⟩

/-- C6 counterexample: two workers; worker 0 wins the race cleanly with
status 0, but reading worker 1's stdout fails.  The claim says the
operation still resolves to the race winner's outcome; instead the joined
run resolves to the read error, no winner line is printed, and the process
exits 1. -/
theorem c6_counterexample :
    (execTargetMulti specEx envReadErr 2).result = .error "read failed" ∧
    (execTargetMulti specEx envReadErr 2).result ≠ .ok envReadErr.raceIdx ∧
    (execTargetMulti specEx envReadErr 2).finalLine = none ∧
    mainExitCode (execTargetResult (execTargetMulti specEx envReadErr 2)) = 1 := by
  refine ⟨rfl, ?_, rfl, rfl⟩
  intro h
  cases h

/-- C6 amended: an error while reading a worker's output stream aborts the
pool: it propagates through the joined multiplexing futures, `exec_target`
returns an error rather than the race winner's outcome, no
`Worker <id> finished fuzzing` line is printed, and the process exits
1. -/
theorem c6_read_error_aborts (spec : ProcessSpec) (env : RunEnv) (jobs : Nat) (pid : Nat → Nat)
    (hspawn : ∀ i, env.spawn i = .ok (pid i)) (i : Nat) (hi : i < jobs) (e : String)
    (he : env.outEnd i = .readError e ∨ env.errEnd i = .readError e) :
    (∃ er, (execTargetMulti spec env jobs).result = .error er) ∧
    (execTargetMulti spec env jobs).finalLine = none ∧
    mainExitCode (execTargetResult (execTargetMulti spec env jobs)) = 1 := by
  have hres := multi_result_eq spec env jobs pid hspawn
  have herrres : ∃ er, (execTargetMulti spec env jobs).result = .error er := by
    cases hrr : env.raceRes with
    | error er =>
      refine ⟨er, ?_⟩
      rw [hres, hrr]
      rfl
    | ok s =>
      rcases he with hout | herr
      · have : ∃ er, joinAll ((List.range jobs).map (fun id =>
            match env.outEnd id with
            | .eof => Except.ok ()
            | .readError er => Except.error er)) = .error er := by
          refine joinAll_error_of _ ⟨_, List.mem_map_of_mem _ (List.mem_range.mpr hi), e, ?_⟩
          rw [hout]
        rcases this with ⟨er, hjoin⟩
        refine ⟨er, ?_⟩
        rw [hres, hrr, hjoin]
        cases hj2 : joinAll ((List.range jobs).map (fun id =>
            match env.errEnd id with
            | .eof => Except.ok ()
            | .readError er => Except.error er)) <;> rfl
      · have : ∃ er, joinAll ((List.range jobs).map (fun id =>
            match env.errEnd id with
            | .eof => Except.ok ()
            | .readError er => Except.error er)) = .error er := by
          refine joinAll_error_of _ ⟨_, List.mem_map_of_mem _ (List.mem_range.mpr hi), e, ?_⟩
          rw [herr]
        rcases this with ⟨er, hjoin⟩
        cases hj1 : joinAll ((List.range jobs).map (fun id =>
            match env.outEnd id with
            | .eof => Except.ok ()
            | .readError er => Except.error er)) with
        | error e1 =>
          refine ⟨e1, ?_⟩
          rw [hres, hrr, hj1]
          rfl
        | ok u =>
          refine ⟨er, ?_⟩
          rw [hres, hrr, hj1, hjoin]
          rfl
  rcases herrres with ⟨er, her⟩
  refine ⟨⟨er, her⟩, ?_, exit_one_of_error _ er her⟩
  rw [finalLine_eq, her]

theorem c6_witness :
    (∃ er, (execTargetMulti specEx envReadErr 2).result = .error er) ∧
    (execTargetMulti specEx envReadErr 2).finalLine = none ∧
    mainExitCode (execTargetResult (execTargetMulti specEx envReadErr 2)) = 1 :=
  c6_read_error_aborts specEx envReadErr 2 (fun i => 40 + i) (fun i => rfl) 1 (by omega)
    "read failed" (Or.inl rfl)
